import Mathlib

/-!
Verification of the toolchain acquisition module of cargo-wasix
(source file: src/toolchain.rs).

The development shallowly embeds the relevant parts of the source:

* Rust string primitives (str::trim, str::starts_with, str::split_whitespace)
  are modelled on lists of characters, which is what they operate on.
* The filesystem is modelled as two lists of paths (regular files and
  directories); a path is the list of characters of its textual form.
* Fallible, effectful code is modelled in a state monad over the filesystem
  and the rustup registry that additionally records a trace of the
  externally observable actions (network fetches, downloads, directory
  removals, archive extractions), and distinguishes ordinary errors from
  panics (assertion failures).
* All external collaborators (the GitHub release API, the archive contents,
  the output of rustc) enter as oracle inputs in an environment record, so
  every definition is executable on concrete inputs.

Definitions come first, then the theorems: general helper lemmas about the
string and path primitives, computation lemmas for each embedded operation,
and one theorem per specification claim (named claim_C1 .. claim_C10, with
witnesses and counterexamples where applicable).
-/

/-- Rust strings, as the list of their characters. -/
abbrev Str := List Char

/-- A string with no whitespace characters (helper predicate used in
well-formedness hypotheses). -/
def wsFree (s : Str) : Bool := s.all (fun c => !c.isWhitespace)

/-- Embedding of Rust str::trim: drop whitespace from both ends. -/
def rustTrim (s : Str) : Str :=
  ((s.dropWhile Char.isWhitespace).reverse.dropWhile Char.isWhitespace).reverse

/-- Accumulator worker for split_whitespace; acc holds the current word
reversed. -/
def splitWsAux : Str → Str → List Str
  | [], acc => if acc.isEmpty then [] else [acc.reverse]
  | c :: rest, acc =>
    if c.isWhitespace then
      if acc.isEmpty then splitWsAux rest [] else acc.reverse :: splitWsAux rest []
    else splitWsAux rest (c :: acc)

/-- Embedding of Rust str::split_whitespace: the maximal whitespace-free
words of a string, in order. -/
def rustSplitWhitespace (s : Str) : List Str := splitWsAux s []

/-- Path concatenation, as Rust Path::join on textual paths. -/
def joinPath (a b : Str) : Str := a ++ '/' :: b

/-- A registered rustup toolchain: a logical name and the path it is linked
to.  Mirrors struct RustupToolchain in the source. -/
structure RustupToolchain where
  name : Str
  path : Str
deriving DecidableEq, Repr

/-- Embedding of RustupToolchain::find_by_name.  The argument listing is the
list of lines printed by the registry CLI (rustup toolchain list --verbose).
Faithful to the source: it takes the first line whose trimmed text starts
with the requested name, and reads the path as the last
whitespace-separated token of that line. -/
def RustupToolchain.find_by_name (name : Str) (listing : List Str) : Option RustupToolchain :=
  match listing.find? (fun line => name.isPrefixOf (rustTrim line)) with
  | some line =>
    match (rustSplitWhitespace line).getLast? with
    | some path => some { name := name, path := path }
    | none => none
  | none => none

/-- Modelled from the spec: the registry manager CLI tracks one entry per
toolchain name, each entry linking a name to a directory.  The CLI itself is
external to the repository, so its state is embedded as a list of entries. -/
structure RegEntry where
  name : Str
  path : Str
deriving DecidableEq, Repr

/-- The registry state: the list of linked toolchains, in listing order. -/
abbrev Registry := List RegEntry

/-- Modelled from the spec: the verbose listing prints one line per
toolchain, name and path separated by a tab. -/
def renderEntry (e : RegEntry) : Str := e.name ++ '\t' :: e.path

/-- Modelled from the spec: the lines of rustup toolchain list --verbose. -/
def renderListing (reg : Registry) : List Str := reg.map renderEntry

/-- Modelled from the spec: rustup toolchain remove deletes the entry with
the given name (absence is not an error). -/
def rustupRemove (name : Str) (reg : Registry) : Registry :=
  reg.filter (fun e => !(e.name == name))

/-- Modelled from the spec: rustup toolchain link registers name -> dir. -/
def rustupLink (name : Str) (dir : Str) (reg : Registry) : Registry :=
  reg ++ [{ name := name, path := dir }]

/-- Well-formed registry entry: nonempty whitespace-free name and path,
which is what rustup actually produces (toolchain names and install paths
without embedded whitespace). -/
def WfEntry (e : RegEntry) : Prop :=
  e.name ≠ [] ∧ wsFree e.name = true ∧ e.path ≠ [] ∧ wsFree e.path = true

instance (e : RegEntry) : Decidable (WfEntry e) := by
  unfold WfEntry; infer_instance

/-- Host CPU architectures distinguished by the cfg attributes in the
source. -/
inductive TargetArch
  | x86_64
  | aarch64
  | other
deriving DecidableEq, Repr

/-- Host operating systems distinguished by the cfg attributes in the
source. -/
inductive TargetOs
  | linux
  | macos
  | windows
  | otherOs
deriving DecidableEq, Repr

/-- Embedding of guess_host_target.  The source selects the return value
with compile-time cfg attributes on target_arch and target_os; the embedding
takes those two platform facts as arguments and reproduces the cfg chain in
order, including the literal string returned on each platform. -/
def guess_host_target (arch : TargetArch) (os : TargetOs) : Option Str :=
  if arch = TargetArch.x86_64 ∧ os = TargetOs.linux then
    some ("x86_64-unknown-linux-gnu").toList
  else if arch = TargetArch.x86_64 ∧ os = TargetOs.macos then
    some ("x86_64-apple-darwin").toList
  else if arch = TargetArch.aarch64 ∧ os = TargetOs.macos then
    some ("aarch64-apple-darwin").toList
  else if arch = TargetArch.x86_64 ∧ os = TargetOs.windows then
    some ("x86_64-apple-darwin").toList
  else
    none

/-- The filesystem: the set of regular files and the set of directories,
each identified by its textual path. -/
structure FS where
  files : List Str
  dirs : List Str
deriving DecidableEq, Repr

/-- Path q is the directory d itself or lies inside its subtree. -/
def underDir (d q : Str) : Bool := d == q || (d ++ ['/']).isPrefixOf q

/-- Embedding of Path::is_file. -/
def isFile (p : Str) (fs : FS) : Bool := fs.files.contains p

/-- Embedding of Path::is_dir. -/
def isDir (p : Str) (fs : FS) : Bool := fs.dirs.contains p

/-- Embedding of Path::exists: a file or a directory is present. -/
def pathExists (p : Str) (fs : FS) : Bool := isFile p fs || isDir p fs

/-- Embedding of std::fs::remove_dir_all: delete the directory and its
whole subtree. -/
def removeDirAllFS (d : Str) (fs : FS) : FS :=
  { files := fs.files.filter (fun q => !underDir d q),
    dirs := fs.dirs.filter (fun q => !underDir d q) }

/-- Relocation of one path under a rename of src to dst. -/
def reroot (src dst q : Str) : Str :=
  if underDir src q then dst ++ q.drop src.length else q

/-- Embedding of std::fs::rename on the path sets: every path in the
subtree of src moves under dst. -/
def renamePaths (src dst : Str) (fs : FS) : FS :=
  { files := fs.files.map (reroot src dst),
    dirs := fs.dirs.map (reroot src dst) }

/-- Contents of a tar archive: its directory entries and file entries as
relative paths (directory entries include all intermediate directories,
as tar archives list them). -/
structure Archive where
  dirs : List Str
  files : List Str
deriving DecidableEq, Repr

/-- Embedding of tar::Archive::unpack into dest: dest is created and every
entry appears below it. -/
def unpackFS (ar : Archive) (dest : Str) (fs : FS) : FS :=
  { files := fs.files ++ ar.files.map (joinPath dest),
    dirs := fs.dirs ++ dest :: ar.dirs.map (joinPath dest) }

/-- The error conditions of the module.  Each constructor corresponds to one
bail! or context message in the source; the carried strings are the data
interpolated into that message. -/
inductive Err
  /-- Release (tag) does not have a prebuilt toolchain for host (target):
  the asset named rust-toolchain-(target).tar.gz is absent. -/
  | noPrebuiltForHost (tag : Str) (target : Str)
  /-- Release (tag) does not have the sysroot asset: no asset is named
  wasix-libc.tar.gz. -/
  | noSysrootAsset (tag : Str)
  /-- Invalid or missing libc sysroot directory: a rename during layout
  normalization failed. -/
  | layoutError
  /-- read_dir failed on a missing binary directory while fixing up
  executable permissions. -/
  | readDirFailed (p : Str)
  /-- Invalid toolchain directory: rustc executable not found at the given
  path (the sanity check in RustupToolchain::link). -/
  | invalidToolchainDir (rustcPath : Str)
  /-- Download of the pre-built toolchain failed; wraps the underlying
  error, as anyhow context does in install_prebuilt_toolchain. -/
  | downloadFailed (inner : Err)
  /-- The WASIX toolchain is not available for download on this platform;
  the message directs the user to run cargo wasix build-toolchain. -/
  | noHostTarget
  /-- Could not detect the wasix toolchain and CARGO_WASIX_OFFLINE is set;
  the message directs the user to run cargo wasix build-toolchain. -/
  | offlineUnavailable
  /-- Could not execute rustc while sanity-checking the toolchain. -/
  | rustcExecFailed
  /-- Invalid wasix rustup toolchain: the target library directory does not
  exist. -/
  | invalidToolchainLibDir (libDir : Str)
deriving DecidableEq, Repr

/-- Externally observable actions, recorded in order of execution. -/
inductive Act
  /-- The GET request for the latest-release descriptor. -/
  | fetchReleaseInfo
  /-- The GET request for an asset body, by its download url. -/
  | download (url : Str)
  /-- A recursive directory removal. -/
  | removeDirAll (p : Str)
  /-- An archive extraction into the given directory. -/
  | unpack (dest : Str)
deriving DecidableEq, Repr

/-- Outcome of a computation: a value, an error, or a Rust panic
(assertion failure). -/
inductive Res (α : Type)
  | ok (a : α)
  | err (e : Err)
  | panicked
deriving DecidableEq, Repr

/-- One step outcome: result, final state, and the trace of actions the
step performed. -/
structure Step (σ : Type) (α : Type) where
  res : Res α
  st : σ
  acts : List Act
deriving DecidableEq, Repr

/-- State monad with an action trace and error/panic propagation. -/
def StM (σ : Type) (α : Type) := σ → Step σ α

/-- Monadic return for StM. -/
def stPure {σ α : Type} (a : α) : StM σ α := fun s => ⟨Res.ok a, s, []⟩

/-- Monadic bind for StM: errors and panics stop the computation, traces
concatenate. -/
def stBind {σ α β : Type} (m : StM σ α) (f : α → StM σ β) : StM σ β := fun s =>
  match m s with
  | ⟨Res.ok a, s1, tr⟩ =>
    let o := f a s1
    ⟨o.res, o.st, tr ++ o.acts⟩
  | ⟨Res.err e, s1, tr⟩ => ⟨Res.err e, s1, tr⟩
  | ⟨Res.panicked, s1, tr⟩ => ⟨Res.panicked, s1, tr⟩

instance {σ : Type} : Monad (StM σ) where
  pure := stPure
  bind := stBind

/-- Computations over the filesystem alone (the download path never touches
the rustup registry). -/
abbrev MF := StM FS

/-- Fail with an error. -/
def mfailF {α : Type} (e : Err) : MF α := fun fs => ⟨Res.err e, fs, []⟩

/-- Read the filesystem. -/
def getFS : MF FS := fun fs => ⟨Res.ok fs, fs, []⟩

/-- Record an observable action. -/
def recordF (a : Act) : MF Unit := fun fs => ⟨Res.ok (), fs, [a]⟩

/-- Perform a recursive removal, recording it. -/
def removeDirAllF (d : Str) : MF Unit := fun fs =>
  ⟨Res.ok (), removeDirAllFS d fs, [Act.removeDirAll d]⟩

/-- Extract an archive into dest, recording it. -/
def unpackF (ar : Archive) (dest : Str) : MF Unit := fun fs =>
  ⟨Res.ok (), unpackFS ar dest fs, [Act.unpack dest]⟩

/-- Embedding of std::fs::rename with an error to raise when the source
path does not exist (how a LayoutError arises in the source). -/
def renameOr (src dst : Str) (e : Err) : MF Unit := fun fs =>
  if pathExists src fs then ⟨Res.ok (), renamePaths src dst fs, []⟩
  else ⟨Res.err e, fs, []⟩

/-- Embedding of std::fs::read_dir used as an existence check: fails when
the path is not a directory. -/
def readDirCheck (p : Str) : MF Unit := fun fs =>
  if isDir p fs then ⟨Res.ok (), fs, []⟩ else ⟨Res.err (Err.readDirFailed p), fs, []⟩

/-- The whole mutable state seen by the orchestrator: the filesystem plus
the rustup registry. -/
structure World where
  fs : FS
  reg : Registry
deriving DecidableEq, Repr

/-- Computations over the whole world. -/
abbrev M := StM World

/-- Fail with an error (world level). -/
def mfail {α : Type} (e : Err) : M α := fun w => ⟨Res.err e, w, []⟩

/-- Read the world. -/
def getWorld : M World := fun w => ⟨Res.ok w, w, []⟩

/-- Update the registry (a rustup CLI mutation). -/
def modifyReg (f : Registry → Registry) : M Unit := fun w =>
  ⟨Res.ok (), { w with reg := f w.reg }, []⟩

/-- Run a filesystem-only computation inside the world: the registry passes
through untouched. -/
def liftFS {α : Type} (m : MF α) : M α := fun w =>
  let o := m w.fs
  ⟨o.res, { fs := o.st, reg := w.reg }, o.acts⟩

/-- Embedding of Rust assert_eq!: panic (not an error) on mismatch. -/
def massertEq (a b : Str) : M Unit := fun w =>
  if a = b then ⟨Res.ok (), w, []⟩ else ⟨Res.panicked, w, []⟩

/-- Release asset returned by the GitHub API (struct GithubAsset). -/
structure GithubAsset where
  browser_download_url : Str
  name : Str
deriving DecidableEq, Repr

/-- Release returned by the GitHub API (struct GithubReleaseData). -/
structure GithubReleaseData where
  assets : List GithubAsset
  tag_name : Str
deriving DecidableEq, Repr

/-- Environment of oracle inputs standing for the external collaborators:
the host platform facts, the release descriptor the API returns, the
contents of the two downloaded archives, the toolchain root directory from
the configuration, and what rustc prints for --print sysroot (none when
rustc cannot be executed). -/
structure Env where
  arch : TargetArch
  os : TargetOs
  release : GithubReleaseData
  sysrootArchive : Archive
  rustArchive : Archive
  toolchain_dir : Str
  rustcSysroot : Option Str
deriving DecidableEq, Repr

/-- The asset name the source looks up for the host toolchain:
rust-toolchain-(target).tar.gz. -/
def rust_asset_name (target : Str) : Str :=
  ("rust-toolchain-").toList ++ target ++ (".tar.gz").toList

/-- Embedding of the layout-normalization step of download_toolchain (the
block following the comment about the redundant additional directory in the
archive): if out_dir/wasix-libc is a directory, move its sysroot32 and
sysroot64 subtrees directly under out_dir and delete the wrapper; renames
of missing subtrees surface as a layout error. -/
def normalize_layout (out_dir : Str) : MF Unit := do
  let wrapper := joinPath out_dir ("wasix-libc").toList
  let fs ← getFS
  if isDir wrapper fs then do
    renameOr (joinPath wrapper ("sysroot32").toList)
      (joinPath out_dir ("sysroot32").toList) Err.layoutError
    renameOr (joinPath wrapper ("sysroot64").toList)
      (joinPath out_dir ("sysroot64").toList) Err.layoutError
    removeDirAllF wrapper
  else
    pure ()

/-- Embedding of the permission fix-up at the end of download_toolchain:
read_dir over the two binary directories (failing when either is missing);
the chmod calls themselves do not change which paths exist. -/
def ensurePerms (rust_dir target : Str) : MF Unit := do
  readDirCheck (joinPath rust_dir ("bin").toList)
  readDirCheck (joinPath rust_dir (("lib/rustlib/").toList ++ target ++ ("/bin").toList))

/-- Embedding of the staging-directory guard of download_toolchain: if the
toolchain directory already exists, delete the existing files. -/
def removeIfDir (d : Str) : MF Unit := fun fs =>
  if isDir d fs then ⟨Res.ok (), removeDirAllFS d fs, [Act.removeDirAll d]⟩
  else ⟨Res.ok (), fs, []⟩

/-- Everything download_toolchain does after the staging directory guard:
download and extract the sysroot asset, normalize its layout, download and
extract the rust toolchain asset, fix up permissions, return the toolchain
directory. -/
def download_stage2 (env : Env) (target : Str) (toolchain_dir : Str)
    (rust_asset sysroot_asset : GithubAsset) : MF Str := do
  recordF (Act.download sysroot_asset.browser_download_url)
  let out_dir := joinPath toolchain_dir ("sysroot").toList
  unpackF env.sysrootArchive out_dir
  normalize_layout out_dir
  recordF (Act.download rust_asset.browser_download_url)
  let rust_dir := joinPath toolchain_dir ("rust").toList
  unpackF env.rustArchive rust_dir
  ensurePerms rust_dir target
  pure toolchain_dir

/-- Embedding of download_toolchain: fetch the release descriptor, locate
the rust-toolchain asset for the target and the fixed sysroot asset (in
that order, failing before any asset download when either is absent),
clear a pre-existing staging directory, then download and extract both
archives.  Transport-level failures of the API call are outside the model:
the release descriptor is an oracle input. -/
def download_toolchain (env : Env) (target : Str) (toolchains_root_dir : Str) : MF Str := do
  recordF Act.fetchReleaseInfo
  match env.release.assets.find? (fun a => a.name == rust_asset_name target) with
  | none => mfailF (Err.noPrebuiltForHost env.release.tag_name target)
  | some rust_asset =>
    match env.release.assets.find? (fun a => a.name == ("wasix-libc.tar.gz").toList) with
    | none => mfailF (Err.noSysrootAsset env.release.tag_name)
    | some sysroot_asset => do
      let toolchain_dir :=
        joinPath toolchains_root_dir (target ++ '_' :: env.release.tag_name)
      removeIfDir toolchain_dir
      download_stage2 env target toolchain_dir rust_asset sysroot_asset

/-- The fixed logical toolchain name (RUSTUP_TOOLCHAIN_NAME). -/
def rustupToolchainName : Str := ("wasix").toList

/-- Embedding of RustupToolchain::link: validate that dir holds bin/rustc,
unlink a pre-existing entry found by find_by_name, then link name to dir.
The remove and link subcommands follow the spec-modelled registry
semantics. -/
def RustupToolchain.link (name : Str) (dir : Str) : M RustupToolchain := do
  let w ← getWorld
  let rustc_path := joinPath dir ("bin/rustc").toList
  if isFile rustc_path w.fs then do
    match RustupToolchain.find_by_name name (renderListing w.reg) with
    | some _ => modifyReg (rustupRemove name)
    | none => pure ()
    modifyReg (rustupLink name dir)
    pure { name := name, path := dir }
  else
    mfail (Err.invalidToolchainDir rustc_path)

/-- Embedding of install_prebuilt_toolchain: with a known host target,
download the toolchain and link it under the fixed name; wrap a download
failure with context and propagate it; without a known host target fail
with the message directing the user to the build path. -/
def install_prebuilt_toolchain (env : Env) (toolchain_dir : Str) : M RustupToolchain := fun w =>
  match guess_host_target env.arch env.os with
  | some target =>
    match liftFS (download_toolchain env target toolchain_dir) w with
    | ⟨Res.ok path, w1, tr⟩ =>
      let o := RustupToolchain.link rustupToolchainName (joinPath path ("rust").toList) w1
      ⟨o.res, o.st, tr ++ o.acts⟩
    | ⟨Res.err e, w1, tr⟩ => ⟨Res.err (Err.downloadFailed e), w1, tr⟩
    | ⟨Res.panicked, w1, tr⟩ => ⟨Res.panicked, w1, tr⟩
  | none => ⟨Res.err Err.noHostTarget, w, []⟩

/-- Embedding of the sanity-check block at the end of ensure_toolchain:
rustc --print sysroot must equal the registered toolchain path (checked
with assert_eq, so a mismatch panics), and the target library directory
must exist under the sysroot (a missing directory is an ordinary error). -/
def toolchainSanity (env : Env) (is64bit : Bool) (toolchain : RustupToolchain) :
    M RustupToolchain := do
  let out ←
    match env.rustcSysroot with
    | some out => pure out
    | none => mfail Err.rustcExecFailed
  let rust_sysroot := rustTrim out
  massertEq toolchain.path rust_sysroot
  let lib_name :=
    if is64bit then ("lib/rustlib/wasm64-wasmer-wasi").toList
    else ("lib/rustlib/wasm32-wasmer-wasi").toList
  let lib_dir := joinPath rust_sysroot lib_name
  let w2 ← getWorld
  if pathExists lib_dir w2.fs then pure toolchain
  else mfail (Err.invalidToolchainLibDir lib_dir)

/-- Embedding of ensure_toolchain: use the registered wasix toolchain if it
is present; otherwise install the prebuilt toolchain unless offline mode
forbids it; then run the sanity check above.  The installation lock
acquisition is a concurrency concern outside this sequential model. -/
def ensure_toolchain (env : Env) (is64bit : Bool) (is_offline : Bool) : M RustupToolchain := do
  let w ← getWorld
  let toolchain ←
    match RustupToolchain.find_by_name rustupToolchainName (renderListing w.reg) with
    | some chain => pure chain
    | none =>
      if !is_offline then install_prebuilt_toolchain env env.toolchain_dir
      else mfail Err.offlineUnavailable
  toolchainSanity env is64bit toolchain

/-- Concrete environment for the C2 counterexample: the sysroot archive
extracts a single directory named foo, with no wasix-libc wrapper and no
word-size subtrees anywhere. -/
def c2Env : Env :=
  { arch := TargetArch.x86_64, os := TargetOs.linux,
    release :=
      { assets := [{ browser_download_url := ("u1").toList, name := rust_asset_name (("t").toList) },
          { browser_download_url := ("u2").toList, name := ("wasix-libc.tar.gz").toList }],
        tag_name := ("v").toList },
    sysrootArchive := { dirs := [("foo").toList], files := [] },
    rustArchive :=
      { dirs := [("bin").toList, ("lib/rustlib/t/bin").toList],
        files := [("bin/rustc").toList] },
    toolchain_dir := ("/r").toList,
    rustcSysroot := none }

/-- Concrete environment whose release carries no assets at all. -/
def c4EnvA : Env :=
  { arch := TargetArch.x86_64, os := TargetOs.linux,
    release := { assets := [], tag_name := ("v").toList },
    sysrootArchive := { dirs := [], files := [] },
    rustArchive := { dirs := [], files := [] },
    toolchain_dir := ("/r").toList, rustcSysroot := none }

/-- Concrete environment whose release carries only the rust-toolchain
asset, not the sysroot asset. -/
def c4EnvB : Env :=
  { arch := TargetArch.x86_64, os := TargetOs.linux,
    release :=
      { assets := [{ browser_download_url := ("u1").toList, name := rust_asset_name (("t").toList) }],
        tag_name := ("v").toList },
    sysrootArchive := { dirs := [], files := [] },
    rustArchive := { dirs := [], files := [] },
    toolchain_dir := ("/r").toList, rustcSysroot := none }

/-- The release rust-toolchain asset used in the C9 witness. -/
def c9Asset1 : GithubAsset :=
  { browser_download_url := ("u1").toList, name := rust_asset_name (("t").toList) }

/-- The release sysroot asset used in the C9 witness. -/
def c9Asset2 : GithubAsset :=
  { browser_download_url := ("u2").toList, name := ("wasix-libc.tar.gz").toList }

/-- Concrete environment for the C9 witness. -/
def c9Env : Env :=
  { arch := TargetArch.x86_64, os := TargetOs.linux,
    release := { assets := [c9Asset1, c9Asset2], tag_name := ("v").toList },
    sysrootArchive := { dirs := [("foo").toList], files := [] },
    rustArchive :=
      { dirs := [("bin").toList, ("lib/rustlib/t/bin").toList],
        files := [("bin/rustc").toList] },
    toolchain_dir := ("/r").toList, rustcSysroot := none }

/-- A filesystem whose staging directory pre-exists and holds a leftover
file from an earlier attempt. -/
def c9FS : FS :=
  { files := [("/r/t_v/junk.txt").toList], dirs := [("/r/t_v").toList] }

/-- Network actions: the release-info request and asset-body downloads. -/
def isNetworkAct : Act → Bool
  | Act.fetchReleaseInfo => true
  | Act.download _ => true
  | _ => false

/-- Registry and world used in the C10 witness: the wasix toolchain is
registered at /w, rustc prints /w for the panic part; for the error part a
second world registers it at the path rustc prints but lacks the library
directory. -/
def c10World : World :=
  { fs := { files := [], dirs := [] },
    reg := [{ name := ("wasix").toList, path := ("/memory").toList }] }

/-- Environment used in the C10 witness: rustc prints /w as its sysroot. -/
def c10Env : Env :=
  { arch := TargetArch.x86_64, os := TargetOs.linux,
    release := { assets := [], tag_name := ("v").toList },
    sysrootArchive := { dirs := [], files := [] },
    rustArchive := { dirs := [], files := [] },
    toolchain_dir := ("/r").toList, rustcSysroot := some (("/w").toList) }

/-- Second world for the C10 witness: the registered path agrees with what
rustc prints, but the target library directory is absent. -/
def c10World2 : World :=
  { fs := { files := [], dirs := [] },
    reg := [{ name := ("wasix").toList, path := ("/w").toList }] }

/-- Environment for the C8 witness: a Linux x86_64 host (a known prebuilt
target) whose release has no assets, so the download fails. -/
def c8Env : Env :=
  { arch := TargetArch.x86_64, os := TargetOs.linux,
    release := { assets := [], tag_name := ("v").toList },
    sysrootArchive := { dirs := [], files := [] },
    rustArchive := { dirs := [], files := [] },
    toolchain_dir := ("/r").toList, rustcSysroot := none }

/-- Environment for the second C8 part: an unsupported host platform. -/
def c8EnvB : Env :=
  { arch := TargetArch.aarch64, os := TargetOs.linux,
    release := { assets := [], tag_name := ("v").toList },
    sysrootArchive := { dirs := [], files := [] },
    rustArchive := { dirs := [], files := [] },
    toolchain_dir := ("/r").toList, rustcSysroot := none }

/-- World for the C5 witness: the wasix name is already linked to a
different path /old, a second unrelated toolchain is registered, and the
new directory /new holds bin/rustc. -/
def c5World : World :=
  { fs := { files := [("/new/bin/rustc").toList], dirs := [("/new").toList] },
    reg := [{ name := ("stable").toList, path := ("/s").toList },
      { name := ("wasix").toList, path := ("/old").toList }] }

/-- The rust-toolchain asset of the C7 witness release. -/
def c7Asset1 : GithubAsset :=
  { browser_download_url := ("u1").toList,
    name := rust_asset_name (("x86_64-unknown-linux-gnu").toList) }

/-- The sysroot asset of the C7 witness release. -/
def c7Asset2 : GithubAsset :=
  { browser_download_url := ("u2").toList, name := ("wasix-libc.tar.gz").toList }

/-- Environment for the C7 witness: a Linux x86_64 host, a release with
both assets, archives shaped like the real ones, and a rustc that prints
the path the toolchain gets installed to. -/
def c7Env : Env :=
  { arch := TargetArch.x86_64, os := TargetOs.linux,
    release := { assets := [c7Asset1, c7Asset2], tag_name := ("v1").toList },
    sysrootArchive :=
      { dirs := [("wasix-libc").toList, ("wasix-libc/sysroot32").toList,
          ("wasix-libc/sysroot64").toList], files := [] },
    rustArchive :=
      { dirs := [("bin").toList, ("lib/rustlib/x86_64-unknown-linux-gnu/bin").toList,
          ("lib/rustlib/wasm32-wasmer-wasi").toList],
        files := [("bin/rustc").toList] },
    toolchain_dir := ("/r").toList,
    rustcSysroot := some (("/r/x86_64-unknown-linux-gnu_v1/rust").toList) }

/-- Initial world for the C7 witness: empty filesystem, empty registry. -/
def c7World : World := { fs := { files := [], dirs := [] }, reg := [] }

/-! ## Theorems -/

/-- Unfolding lemma for the bind of StM. -/
theorem stBind_apply {σ α β : Type} (m : StM σ α) (f : α → StM σ β) (s : σ) :
    (m >>= f) s =
      match m s with
      | ⟨Res.ok a, s1, tr⟩ =>
        let o := f a s1
        ⟨o.res, o.st, tr ++ o.acts⟩
      | ⟨Res.err e, s1, tr⟩ => ⟨Res.err e, s1, tr⟩
      | ⟨Res.panicked, s1, tr⟩ => ⟨Res.panicked, s1, tr⟩ := rfl

/-- Unfolding lemma for the pure of StM. -/
theorem stPure_apply {σ α : Type} (a : α) (s : σ) :
    (pure a : StM σ α) s = ⟨Res.ok a, s, []⟩ := rfl

theorem isPrefixOf_iff {l1 l2 : Str} : l1.isPrefixOf l2 = true ↔ l1 <+: l2 := by
  induction l1 generalizing l2 with
  | nil => simp [List.isPrefixOf, List.nil_prefix]
  | cons c t ih =>
    cases l2 with
    | nil => simp [List.isPrefixOf, List.prefix_nil]
    | cons d t2 =>
      show (c == d && t.isPrefixOf t2) = true ↔ _
      simp [Bool.and_eq_true, ih, List.cons_prefix_cons, beq_iff_eq]

theorem prefixTotal {l1 l2 l3 : Str} (h1 : l1 <+: l3) (h2 : l2 <+: l3) :
    l1 <+: l2 ∨ l2 <+: l1 := by
  induction l3 generalizing l1 l2 with
  | nil =>
    rw [List.prefix_nil] at h1
    subst h1; left; exact List.nil_prefix
  | cons c t ih =>
    cases l1 with
    | nil => left; exact List.nil_prefix
    | cons a t1 =>
      cases l2 with
      | nil => right; exact List.nil_prefix
      | cons b t2 =>
        rw [List.cons_prefix_cons] at h1 h2
        obtain ⟨rfl, h1⟩ := h1
        obtain ⟨rfl, h2⟩ := h2
        rcases ih h1 h2 with h | h
        · left; exact (List.cons_prefix_cons).mpr ⟨rfl, h⟩
        · right; exact (List.cons_prefix_cons).mpr ⟨rfl, h⟩

theorem wsFree_mem {s : Str} (h : wsFree s = true) {c : Char} (hc : c ∈ s) :
    c.isWhitespace = false := by
  rw [wsFree, List.all_eq_true] at h
  simpa using h c hc

theorem splitWsAux_chew (a : Str) (h : wsFree a = true) :
    ∀ (s acc : Str), splitWsAux (a ++ s) acc = splitWsAux s (a.reverse ++ acc) := by
  induction a with
  | nil => intro s acc; simp
  | cons c t ih =>
    intro s acc
    have hc : c.isWhitespace = false := wsFree_mem h (by simp)
    have ht : wsFree t = true := by
      rw [wsFree, List.all_eq_true] at h ⊢
      intro x hx; exact h x (by simp [hx])
    show splitWsAux (c :: (t ++ s)) acc = _
    rw [splitWsAux, hc]
    simp only [Bool.false_eq_true, if_false, ih ht, List.reverse_cons, List.append_assoc,
      List.singleton_append]

theorem splitWs_single (b : Str) (hb : wsFree b = true) (hne : b ≠ []) :
    rustSplitWhitespace b = [b] := by
  rw [rustSplitWhitespace]
  have := splitWsAux_chew b hb [] []
  simp only [List.append_nil] at this
  rw [this, splitWsAux]
  simp [List.isEmpty_iff, hne]

theorem splitWs_line (a b : Str) (ha : wsFree a = true) (hna : a ≠ [])
    (hb : wsFree b = true) (hnb : b ≠ []) :
    rustSplitWhitespace (a ++ '\t' :: b) = [a, b] := by
  rw [rustSplitWhitespace, splitWsAux_chew a ha, List.append_nil, splitWsAux]
  have : ('\t' : Char).isWhitespace = true := by decide
  rw [this]
  simp only [if_true, List.isEmpty_iff, List.reverse_eq_nil_iff]
  rw [if_neg hna, List.reverse_reverse]
  have hsingle : splitWsAux b [] = [b] := splitWs_single b hb hnb
  rw [hsingle]

theorem trim_line (a b : Str) (ha : wsFree a = true) (hna : a ≠ [])
    (hb : wsFree b = true) (hnb : b ≠ []) :
    rustTrim (a ++ '\t' :: b) = a ++ '\t' :: b := by
  rw [rustTrim]
  have h1 : (a ++ '\t' :: b).dropWhile Char.isWhitespace = a ++ '\t' :: b := by
    cases a with
    | nil => exact absurd rfl hna
    | cons c t =>
      have hc : c.isWhitespace = false := wsFree_mem ha (by simp)
      show ((c :: (t ++ '\t' :: b)).dropWhile Char.isWhitespace) = _
      rw [List.dropWhile_cons, hc]
      simp
  rw [h1]
  have h2 : (a ++ '\t' :: b).reverse = b.reverse ++ '\t' :: a.reverse := by
    rw [List.reverse_append, List.reverse_cons, List.append_assoc, List.singleton_append]
  rw [h2]
  have h3 : (b.reverse ++ '\t' :: a.reverse).dropWhile Char.isWhitespace
      = b.reverse ++ '\t' :: a.reverse := by
    cases hbr : b.reverse with
    | nil => exact absurd (by simpa using hbr) hnb
    | cons d r =>
      have hd : d.isWhitespace = false := by
        refine wsFree_mem hb ?_
        have : d ∈ b.reverse := by rw [hbr]; simp
        simpa using this
      show ((d :: (r ++ '\t' :: a.reverse)).dropWhile Char.isWhitespace) = _
      rw [List.dropWhile_cons, hd]
      simp
  rw [h3, ← h2, List.reverse_reverse]

theorem prefixCancel {x u v : Str} (h : x ++ u <+: x ++ v) : u <+: v := by
  obtain ⟨t, ht⟩ := h
  rw [List.append_assoc] at ht
  exact ⟨t, List.append_cancel_left ht⟩

theorem startsWith_line {name a b : Str} (hw : wsFree name = true) :
    name <+: a ++ '\t' :: b ↔ name <+: a := by
  constructor
  · intro h
    rcases prefixTotal h (List.prefix_append a ('\t' :: b)) with h2 | h2
    · exact h2
    · obtain ⟨r, hr⟩ := h2
      cases r with
      | nil => rw [← hr]; simp
      | cons c r2 =>
        subst hr
        have h3 : (c :: r2 : Str) <+: '\t' :: b := prefixCancel h
        rw [List.cons_prefix_cons] at h3
        obtain ⟨rfl, _⟩ := h3
        have : ('\t' : Char).isWhitespace = false := wsFree_mem hw (by simp)
        exact absurd this (by decide)
  · intro h
    exact h.trans (List.prefix_append a ('\t' :: b))

theorem fbn_cons_pos {name line : Str} {rest : List Str}
    (h : name.isPrefixOf (rustTrim line) = true) :
    RustupToolchain.find_by_name name (line :: rest)
      = ((rustSplitWhitespace line).getLast?).map
          (fun path => { name := name, path := path }) := by
  rw [RustupToolchain.find_by_name, List.find?_cons, h]
  cases h2 : (rustSplitWhitespace line).getLast? <;> simp [h2]

theorem fbn_cons_neg {name line : Str} {rest : List Str}
    (h : name.isPrefixOf (rustTrim line) = false) :
    RustupToolchain.find_by_name name (line :: rest)
      = RustupToolchain.find_by_name name rest := by
  rw [RustupToolchain.find_by_name, List.find?_cons, h]
  rfl

theorem find_by_name_render (name : Str) (hw : wsFree name = true)
    (reg : Registry) (hreg : ∀ e ∈ reg, WfEntry e) :
    RustupToolchain.find_by_name name (renderListing reg)
      = (reg.find? (fun e => name.isPrefixOf e.name)).map
          (fun e => { name := name, path := e.path }) := by
  induction reg with
  | nil => rfl
  | cons e t ih =>
    obtain ⟨hne, hwe, hpe, hwp⟩ := hreg e (by simp)
    have hline : (name.isPrefixOf (rustTrim (renderEntry e))) = name.isPrefixOf e.name := by
      rw [renderEntry, trim_line e.name e.path hwe hne hwp hpe, Bool.eq_iff_iff,
        isPrefixOf_iff, isPrefixOf_iff]
      exact startsWith_line hw
    have htail : RustupToolchain.find_by_name name (renderListing t)
        = (t.find? (fun e => name.isPrefixOf e.name)).map
            (fun e => { name := name, path := e.path }) :=
      ih (fun x hx => hreg x (by simp [hx]))
    have hsplit : rustSplitWhitespace (renderEntry e) = [e.name, e.path] := by
      rw [renderEntry]; exact splitWs_line e.name e.path hwe hne hwp hpe
    rw [renderListing, List.map_cons]
    cases hp : name.isPrefixOf e.name with
    | true =>
      rw [fbn_cons_pos (by rw [hline, hp]), hsplit, List.find?_cons, hp]
      rfl
    | false =>
      rw [fbn_cons_neg (by rw [hline, hp]), List.find?_cons, hp]
      rw [← renderListing, htail]

theorem prefixPad {x u v : Str} (h : u <+: v) : x ++ u <+: x ++ v := by
  obtain ⟨t, ht⟩ := h
  exact ⟨t, by rw [List.append_assoc, ht]⟩

theorem underDir_refl (d : Str) : underDir d d = true := by
  simp [underDir]

theorem underRoot_iff (o a b : Str) :
    underDir (joinPath o a) (joinPath o b) = (a == b || (a ++ ['/']).isPrefixOf b) := by
  rw [underDir, joinPath, joinPath]
  congr 1
  · rw [Bool.eq_iff_iff, beq_iff_eq, beq_iff_eq]
    constructor
    · intro h
      have := List.append_cancel_left h
      simpa using this
    · intro h; rw [h]
  · rw [Bool.eq_iff_iff, isPrefixOf_iff, isPrefixOf_iff]
    constructor
    · intro h
      have h2 : o ++ ('/' :: (a ++ ['/'])) <+: o ++ ('/' :: b) := by
        simpa [List.append_assoc] using h
      have h3 := prefixCancel h2
      rw [List.cons_prefix_cons] at h3
      exact h3.2
    · intro h
      have h2 : o ++ ('/' :: (a ++ ['/'])) <+: o ++ ('/' :: b) :=
        prefixPad ((List.cons_prefix_cons).mpr ⟨rfl, h⟩)
      simpa [List.append_assoc] using h2

theorem isDir_removeDirAll_self (d : Str) (fs : FS) :
    isDir d (removeDirAllFS d fs) = false := by
  rw [isDir, removeDirAllFS]
  by_contra h
  rw [Bool.not_eq_false, List.elem_iff, List.mem_filter] at h
  have := h.2
  rw [underDir_refl] at this
  exact absurd this (by decide)

theorem containsIff {l : List Str} {a : Str} : l.contains a = true ↔ a ∈ l := by
  simp [List.contains, List.elem_iff]

theorem reroot_self (src dst : Str) : reroot src dst src = dst := by
  rw [reroot, if_pos (underDir_refl src), List.drop_length, List.append_nil]

theorem reroot_of_not_under {src dst q : Str} (h : underDir src q = false) :
    reroot src dst q = q := by
  rw [reroot, h]; simp

theorem rerootImage {src dst q' : Str} {l : List Str}
    (h : q' ∈ l.map (reroot src dst)) : q' ∈ l ∨ ∃ r, q' = dst ++ r := by
  rw [List.mem_map] at h
  obtain ⟨q, hq, him⟩ := h
  by_cases hu : underDir src q = true
  · right
    exact ⟨q.drop src.length, by rw [← him, reroot, if_pos hu]⟩
  · left
    rw [← him, reroot_of_not_under (by simpa using hu)]
    exact hq

theorem pathExists_rename_keep {src dst q : Str} {fs : FS}
    (h : pathExists q fs = true) (hu : underDir src q = false) :
    pathExists q (renamePaths src dst fs) = true := by
  rw [pathExists, isFile, isDir, Bool.or_eq_true, containsIff, containsIff] at h ⊢
  rw [renamePaths]
  rcases h with h | h
  · left
    have : reroot src dst q ∈ fs.files.map (reroot src dst) := List.mem_map_of_mem _ h
    rwa [reroot_of_not_under hu] at this
  · right
    have : reroot src dst q ∈ fs.dirs.map (reroot src dst) := List.mem_map_of_mem _ h
    rwa [reroot_of_not_under hu] at this

theorem pathExists_rename_dst {src dst : Str} {fs : FS}
    (h : pathExists src fs = true) :
    pathExists dst (renamePaths src dst fs) = true := by
  rw [pathExists, isFile, isDir, Bool.or_eq_true, containsIff, containsIff] at h ⊢
  rw [renamePaths]
  rcases h with h | h
  · left
    have : reroot src dst src ∈ fs.files.map (reroot src dst) := List.mem_map_of_mem _ h
    rwa [reroot_self] at this
  · right
    have : reroot src dst src ∈ fs.dirs.map (reroot src dst) := List.mem_map_of_mem _ h
    rwa [reroot_self] at this

theorem pathExists_rename_none {src dst tgt : Str} {fs : FS}
    (h : pathExists tgt fs = false) (himp : ∀ r : Str, tgt ≠ dst ++ r) :
    pathExists tgt (renamePaths src dst fs) = false := by
  rw [pathExists, isFile, isDir, Bool.or_eq_false_iff] at h
  have hf : tgt ∉ fs.files := fun hm => by
    rw [containsIff.mpr hm] at h; exact absurd h.1 (by decide)
  have hd : tgt ∉ fs.dirs := fun hm => by
    rw [containsIff.mpr hm] at h; exact absurd h.2 (by decide)
  by_contra hcon
  rw [Bool.not_eq_false, pathExists, isFile, isDir, Bool.or_eq_true,
    containsIff, containsIff, renamePaths] at hcon
  rcases hcon with hm | hm
  · rcases rerootImage hm with hin | ⟨r, hr⟩
    · exact hf hin
    · exact himp r hr
  · rcases rerootImage hm with hin | ⟨r, hr⟩
    · exact hd hin
    · exact himp r hr

theorem pathExists_remove_keep {d q : Str} {fs : FS}
    (h : pathExists q fs = true) (hu : underDir d q = false) :
    pathExists q (removeDirAllFS d fs) = true := by
  rw [pathExists, isFile, isDir, Bool.or_eq_true, containsIff, containsIff] at h ⊢
  rw [removeDirAllFS]
  rcases h with h | h
  · left
    exact List.mem_filter.mpr ⟨h, by simp [hu]⟩
  · right
    exact List.mem_filter.mpr ⟨h, by simp [hu]⟩

theorem stBindEq {σ α β : Type} (m : StM σ α) (f : α → StM σ β) : m >>= f = stBind m f := rfl

theorem stPureEq {σ α : Type} (a : α) : (pure a : StM σ α) = stPure a := rfl

theorem joinPath_assoc (o a b : Str) :
    joinPath (joinPath o a) b = joinPath o (a ++ '/' :: b) := by
  rw [joinPath, joinPath, joinPath, List.append_assoc]
  rfl

theorem joinPath_append_cancel {o a b r : Str} :
    joinPath o a = joinPath o b ++ r ↔ a = b ++ r := by
  rw [joinPath, joinPath, List.append_assoc]
  constructor
  · intro h
    have h2 := List.append_cancel_left h
    simpa using h2
  · intro h
    rw [List.cons_append, h]

/-- C1 (counterexample to the claim as stated): find_by_name is claimed to
return a handle only when the listing contains an entry whose name matches
exactly.  On a listing whose only entry is named wasix-old, looking up
wasix returns a handle (with the path of the wasix-old entry), although no
entry is named exactly wasix: the source matches lines by starts_with, not
by equality. -/
theorem claim_C1_counterexample :
    RustupToolchain.find_by_name (("wasix").toList)
        (renderListing [{ name := ("wasix-old").toList, path := ("/tmp/other").toList }])
      = some { name := ("wasix").toList, path := ("/tmp/other").toList }
    ∧ ∀ e ∈ ([{ name := ("wasix-old").toList, path := ("/tmp/other").toList }] : Registry),
        e.name ≠ ("wasix").toList := by
  constructor
  · rfl
  · decide

/-- C1 (amended): over a well-formed rendered registry listing,
find_by_name returns a handle built from the first entry whose name has the
queried name as a prefix (so an entry whose name merely extends the query
also matches), with the path taken from that entry; it returns none exactly
when no entry name has the query as a prefix.  In particular an
exactly-matching entry is found when it is the first prefix match, and a
listing with no matching line yields not-found rather than an error. -/
theorem claim_C1 (name : Str) (hw : wsFree name = true) (reg : Registry)
    (hreg : ∀ e ∈ reg, WfEntry e) :
    RustupToolchain.find_by_name name (renderListing reg)
      = (reg.find? (fun e => name.isPrefixOf e.name)).map
          (fun e => { name := name, path := e.path }) :=
  find_by_name_render name hw reg hreg

/-- C1 witness: the claim theorem applied to the scenario listing from the
spec, one wasix entry linking /home/user/.wasix/toolchain/rust. -/
theorem claim_C1_witness :
    wsFree (("wasix").toList) = true
    ∧ (∀ e ∈ ([{ name := ("stable").toList, path := ("/s").toList },
        { name := ("wasix").toList, path := ("/home/user/.wasix/toolchain/rust").toList }] : Registry),
        WfEntry e)
    ∧ RustupToolchain.find_by_name (("wasix").toList)
        (renderListing [{ name := ("stable").toList, path := ("/s").toList },
          { name := ("wasix").toList, path := ("/home/user/.wasix/toolchain/rust").toList }])
      = (([{ name := ("stable").toList, path := ("/s").toList },
          { name := ("wasix").toList, path := ("/home/user/.wasix/toolchain/rust").toList }] : Registry).find?
            (fun e => (("wasix").toList).isPrefixOf e.name)).map
          (fun e => { name := ("wasix").toList, path := e.path }) :=
  ⟨by decide, by decide, claim_C1 (("wasix").toList) (by decide) _ (by decide)⟩

/-- C3: on x86_64 Windows the Host Target Detector does not return an
identifier naming the Windows operating system of the host: it returns the macOS
identifier x86_64-apple-darwin, the very string it returns for x86_64
macOS (a copy-paste slip in the cfg chain of guess_host_target,
contradicting its doc comment about detecting the host target triple). -/
theorem claim_C3_failing :
    guess_host_target TargetArch.x86_64 TargetOs.windows
      = some (("x86_64-apple-darwin").toList)
    ∧ guess_host_target TargetArch.x86_64 TargetOs.windows
      = guess_host_target TargetArch.x86_64 TargetOs.macos := by
  constructor
  · rfl
  · rfl

/-- C2 (amended): the layout-normalization step is guarded by the existence
of the wrapper directory.  When out_dir/wasix-libc is a directory, it moves
the two word-size subtrees up one level, deletes the emptied wrapper, and
fails with a LayoutError when either expected subtree is missing inside the
wrapper; when the wrapper directory itself is absent after extraction, the
step is skipped without error. -/
theorem claim_C2 (out_dir : Str) (fs : FS) :
    (isDir (joinPath out_dir ("wasix-libc").toList) fs = false →
      normalize_layout out_dir fs = ⟨Res.ok (), fs, []⟩)
    ∧ (isDir (joinPath out_dir ("wasix-libc").toList) fs = true →
      pathExists (joinPath (joinPath out_dir ("wasix-libc").toList) ("sysroot32").toList) fs = false →
      (normalize_layout out_dir fs).res = Res.err Err.layoutError)
    ∧ (isDir (joinPath out_dir ("wasix-libc").toList) fs = true →
      pathExists (joinPath (joinPath out_dir ("wasix-libc").toList) ("sysroot32").toList) fs = true →
      pathExists (joinPath (joinPath out_dir ("wasix-libc").toList) ("sysroot64").toList) fs = false →
      (normalize_layout out_dir fs).res = Res.err Err.layoutError)
    ∧ (isDir (joinPath out_dir ("wasix-libc").toList) fs = true →
      pathExists (joinPath (joinPath out_dir ("wasix-libc").toList) ("sysroot32").toList) fs = true →
      pathExists (joinPath (joinPath out_dir ("wasix-libc").toList) ("sysroot64").toList) fs = true →
      (normalize_layout out_dir fs).res = Res.ok ()
      ∧ pathExists (joinPath out_dir ("sysroot32").toList) (normalize_layout out_dir fs).st = true
      ∧ pathExists (joinPath out_dir ("sysroot64").toList) (normalize_layout out_dir fs).st = true
      ∧ isDir (joinPath out_dir ("wasix-libc").toList) (normalize_layout out_dir fs).st = false) := by
  refine ⟨?_, ?_, ?_, ?_⟩
  · intro hskip
    simp only [normalize_layout, stBindEq, stBind, stPureEq, stPure, getFS, renameOr,
      removeDirAllF, hskip, eq_self_iff_true, if_true, if_false, ite_true, ite_false,
      Bool.false_eq_true, List.nil_append, List.append_nil]
  · intro hwrap h1
    simp only [normalize_layout, stBindEq, stBind, stPureEq, stPure, getFS, renameOr,
      removeDirAllF, hwrap, h1, eq_self_iff_true, if_true, if_false, ite_true, ite_false,
      Bool.false_eq_true, List.nil_append, List.append_nil]
  · intro hwrap h1 h2
    have himp : ∀ r : Str,
        joinPath (joinPath out_dir ("wasix-libc").toList) ("sysroot64").toList
          ≠ joinPath out_dir ("sysroot32").toList ++ r := by
      intro r heq
      rw [joinPath_assoc] at heq
      have h3 := joinPath_append_cancel.mp heq
      have h4 := congrArg List.head? h3
      simp at h4
    have hkey : pathExists
        (joinPath (joinPath out_dir ("wasix-libc").toList) ("sysroot64").toList)
        (renamePaths (joinPath (joinPath out_dir ("wasix-libc").toList) ("sysroot32").toList)
          (joinPath out_dir ("sysroot32").toList) fs) = false :=
      pathExists_rename_none h2 himp
    simp only [normalize_layout, stBindEq, stBind, stPureEq, stPure, getFS, renameOr,
      removeDirAllF, hwrap, h1, hkey, eq_self_iff_true, if_true, if_false, ite_true, ite_false,
      Bool.false_eq_true, List.nil_append, List.append_nil]
  · intro hwrap h1 h2
    have hu1 : underDir (joinPath (joinPath out_dir ("wasix-libc").toList) ("sysroot32").toList)
        (joinPath (joinPath out_dir ("wasix-libc").toList) ("sysroot64").toList) = false := by
      rw [underRoot_iff]; decide
    have hu2 : underDir (joinPath (joinPath out_dir ("wasix-libc").toList) ("sysroot64").toList)
        (joinPath out_dir ("sysroot32").toList) = false := by
      rw [joinPath_assoc, underRoot_iff]; decide
    have hu3 : underDir (joinPath out_dir ("wasix-libc").toList)
        (joinPath out_dir ("sysroot32").toList) = false := by
      rw [underRoot_iff]; decide
    have hu4 : underDir (joinPath out_dir ("wasix-libc").toList)
        (joinPath out_dir ("sysroot64").toList) = false := by
      rw [underRoot_iff]; decide
    have hf1 : pathExists (joinPath (joinPath out_dir ("wasix-libc").toList) ("sysroot64").toList)
        (renamePaths (joinPath (joinPath out_dir ("wasix-libc").toList) ("sysroot32").toList)
          (joinPath out_dir ("sysroot32").toList) fs) = true :=
      pathExists_rename_keep h2 hu1
    have hred : normalize_layout out_dir fs =
        ⟨Res.ok (),
          removeDirAllFS (joinPath out_dir ("wasix-libc").toList)
            (renamePaths (joinPath (joinPath out_dir ("wasix-libc").toList) ("sysroot64").toList)
              (joinPath out_dir ("sysroot64").toList)
              (renamePaths (joinPath (joinPath out_dir ("wasix-libc").toList) ("sysroot32").toList)
                (joinPath out_dir ("sysroot32").toList) fs)),
          [Act.removeDirAll (joinPath out_dir ("wasix-libc").toList)]⟩ := by
      simp only [normalize_layout, stBindEq, stBind, stPureEq, stPure, getFS, renameOr,
        removeDirAllF, hwrap, h1, hf1, eq_self_iff_true, if_true, if_false, ite_true, ite_false,
        Bool.false_eq_true, List.nil_append, List.append_nil]
    rw [hred]
    refine ⟨rfl, ?_, ?_, ?_⟩
    · exact pathExists_remove_keep (pathExists_rename_keep (pathExists_rename_dst h1) hu2) hu3
    · exact pathExists_remove_keep (pathExists_rename_dst hf1) hu4
    · exact isDir_removeDirAll_self _ _

/-- C2 (counterexample to the claim as stated): a download whose sysroot
archive contains no wasix-libc wrapper and no sysroot32 or sysroot64
subtree anywhere completes successfully with no LayoutError, although the
expected subtrees are missing after extraction: the normalization is
skipped entirely when the wrapper directory is absent. -/
theorem claim_C2_counterexample :
    (download_toolchain c2Env (("t").toList) (("/r").toList)
        { files := [], dirs := [] }).res = Res.ok (("/r/t_v").toList)
    ∧ pathExists (("/r/t_v/sysroot/wasix-libc/sysroot32").toList)
        (download_toolchain c2Env (("t").toList) (("/r").toList)
          { files := [], dirs := [] }).st = false
    ∧ pathExists (("/r/t_v/sysroot/sysroot32").toList)
        (download_toolchain c2Env (("t").toList) (("/r").toList)
          { files := [], dirs := [] }).st = false := by
  refine ⟨?_, ?_, ?_⟩ <;> decide

/-- C2 witness: the amended theorem applied at concrete states, once at a
state where the wrapper holds both subtrees (the move succeeds) and once at
a state where the wrapper exists but its sysroot32 subtree is missing (a
LayoutError is returned). -/
theorem claim_C2_witness :
    (isDir (joinPath (("/o").toList) ("wasix-libc").toList)
        { files := [],
          dirs := [("/o/wasix-libc").toList, ("/o/wasix-libc/sysroot32").toList,
            ("/o/wasix-libc/sysroot64").toList] } = true
      ∧ (normalize_layout (("/o").toList)
          { files := [],
            dirs := [("/o/wasix-libc").toList, ("/o/wasix-libc/sysroot32").toList,
              ("/o/wasix-libc/sysroot64").toList] }).res = Res.ok ())
    ∧ (isDir (joinPath (("/o").toList) ("wasix-libc").toList)
        { files := [], dirs := [("/o/wasix-libc").toList] } = true
      ∧ (normalize_layout (("/o").toList)
          { files := [], dirs := [("/o/wasix-libc").toList] }).res = Res.err Err.layoutError) := by
  constructor
  · exact ⟨by decide,
      ((claim_C2 (("/o").toList)
        { files := [],
          dirs := [("/o/wasix-libc").toList, ("/o/wasix-libc/sysroot32").toList,
            ("/o/wasix-libc/sysroot64").toList] }).2.2.2
        (by decide) (by decide) (by decide)).1⟩
  · exact ⟨by decide,
      (claim_C2 (("/o").toList)
        { files := [], dirs := [("/o/wasix-libc").toList] }).2.1
        (by decide) (by decide)⟩

/-- C4: asset selection in download_toolchain is total before any transfer:
if the release has no rust-toolchain-(target).tar.gz asset the function
fails naming the release tag and the host target (which determines the
asset name), and if that asset exists but no wasix-libc.tar.gz sysroot
asset does, it fails naming the release tag; in both cases the action trace
holds only the release-info fetch, so no asset body download is ever
attempted before both assets have been found. -/
theorem claim_C4 (env : Env) (target root : Str) (fs : FS) :
    (env.release.assets.find? (fun a => a.name == rust_asset_name target) = none →
      download_toolchain env target root fs
        = ⟨Res.err (Err.noPrebuiltForHost env.release.tag_name target), fs, [Act.fetchReleaseInfo]⟩
      ∧ ∀ u, Act.download u ∉ (download_toolchain env target root fs).acts)
    ∧ (∀ ra, env.release.assets.find? (fun a => a.name == rust_asset_name target) = some ra →
      env.release.assets.find? (fun a => a.name == ("wasix-libc.tar.gz").toList) = none →
      download_toolchain env target root fs
        = ⟨Res.err (Err.noSysrootAsset env.release.tag_name), fs, [Act.fetchReleaseInfo]⟩
      ∧ ∀ u, Act.download u ∉ (download_toolchain env target root fs).acts) := by
  constructor
  · intro h
    have hred : download_toolchain env target root fs
        = ⟨Res.err (Err.noPrebuiltForHost env.release.tag_name target), fs,
            [Act.fetchReleaseInfo]⟩ := by
      simp only [download_toolchain, stBindEq, stBind, stPureEq, stPure, recordF, mfailF, h,
        List.nil_append, List.append_nil, List.singleton_append]
    exact ⟨hred, by rw [hred]; intro u; simp⟩
  · intro ra hra hsa
    have hred : download_toolchain env target root fs
        = ⟨Res.err (Err.noSysrootAsset env.release.tag_name), fs, [Act.fetchReleaseInfo]⟩ := by
      simp only [download_toolchain, stBindEq, stBind, stPureEq, stPure, recordF, mfailF,
        hra, hsa, List.nil_append, List.append_nil, List.singleton_append]
    exact ⟨hred, by rw [hred]; intro u; simp⟩

/-- C4 witness: the theorem applied to a release with no assets at all
(rust asset missing) and to a release holding only the rust asset (sysroot
asset missing). -/
theorem claim_C4_witness :
    (c4EnvA.release.assets.find? (fun a => a.name == rust_asset_name (("t").toList)) = none
      ∧ download_toolchain c4EnvA (("t").toList) (("/r").toList) { files := [], dirs := [] }
        = ⟨Res.err (Err.noPrebuiltForHost (("v").toList) (("t").toList)),
            { files := [], dirs := [] }, [Act.fetchReleaseInfo]⟩)
    ∧ (download_toolchain c4EnvB (("t").toList) (("/r").toList) { files := [], dirs := [] }
        = ⟨Res.err (Err.noSysrootAsset (("v").toList)),
            { files := [], dirs := [] }, [Act.fetchReleaseInfo]⟩) := by
  refine ⟨⟨by decide, ?_⟩, ?_⟩
  · exact ((claim_C4 c4EnvA (("t").toList) (("/r").toList) { files := [], dirs := [] }).1
      (by decide)).1
  · exact ((claim_C4 c4EnvB (("t").toList) (("/r").toList) { files := [], dirs := [] }).2
      { browser_download_url := ("u1").toList, name := rust_asset_name (("t").toList) }
      (by decide) (by decide)).1

/-- C9: when the deterministically named staging directory already exists
before the download of the selected assets begins, download_toolchain
removes it recursively as its very next observable action after the
release-info fetch, before any download or extraction; and the remainder of
the run (result and final filesystem) coincides with a run started from the
filesystem with that directory already erased, so the resulting directory
holds only the newly extracted contents, independent of whatever the
staging directory held before. -/
theorem claim_C9 (env : Env) (target root : Str) (fs : FS) (ra sa : GithubAsset)
    (hra : env.release.assets.find? (fun a => a.name == rust_asset_name target) = some ra)
    (hsa : env.release.assets.find? (fun a => a.name == ("wasix-libc.tar.gz").toList) = some sa)
    (hdir : isDir (joinPath root (target ++ '_' :: env.release.tag_name)) fs = true) :
    (∃ rest, (download_toolchain env target root fs).acts
        = Act.fetchReleaseInfo
          :: Act.removeDirAll (joinPath root (target ++ '_' :: env.release.tag_name)) :: rest)
    ∧ (download_toolchain env target root fs).res
        = (download_toolchain env target root
            (removeDirAllFS (joinPath root (target ++ '_' :: env.release.tag_name)) fs)).res
    ∧ (download_toolchain env target root fs).st
        = (download_toolchain env target root
            (removeDirAllFS (joinPath root (target ++ '_' :: env.release.tag_name)) fs)).st := by
  have e1 : download_toolchain env target root fs
      = ⟨(download_stage2 env target (joinPath root (target ++ '_' :: env.release.tag_name)) ra sa
            (removeDirAllFS (joinPath root (target ++ '_' :: env.release.tag_name)) fs)).res,
         (download_stage2 env target (joinPath root (target ++ '_' :: env.release.tag_name)) ra sa
            (removeDirAllFS (joinPath root (target ++ '_' :: env.release.tag_name)) fs)).st,
         Act.fetchReleaseInfo ::
           Act.removeDirAll (joinPath root (target ++ '_' :: env.release.tag_name)) ::
           (download_stage2 env target (joinPath root (target ++ '_' :: env.release.tag_name)) ra sa
              (removeDirAllFS (joinPath root (target ++ '_' :: env.release.tag_name)) fs)).acts⟩ := by
    simp only [download_toolchain, stBindEq, stBind, stPureEq, stPure, recordF, mfailF, hra, hsa,
      removeIfDir, hdir, eq_self_iff_true, if_true, ite_true,
      List.nil_append, List.append_nil, List.singleton_append, List.cons_append]
  have h2 : isDir (joinPath root (target ++ '_' :: env.release.tag_name))
      (removeDirAllFS (joinPath root (target ++ '_' :: env.release.tag_name)) fs) = false :=
    isDir_removeDirAll_self _ _
  have e2 : download_toolchain env target root
        (removeDirAllFS (joinPath root (target ++ '_' :: env.release.tag_name)) fs)
      = ⟨(download_stage2 env target (joinPath root (target ++ '_' :: env.release.tag_name)) ra sa
            (removeDirAllFS (joinPath root (target ++ '_' :: env.release.tag_name)) fs)).res,
         (download_stage2 env target (joinPath root (target ++ '_' :: env.release.tag_name)) ra sa
            (removeDirAllFS (joinPath root (target ++ '_' :: env.release.tag_name)) fs)).st,
         Act.fetchReleaseInfo ::
           (download_stage2 env target (joinPath root (target ++ '_' :: env.release.tag_name)) ra sa
              (removeDirAllFS (joinPath root (target ++ '_' :: env.release.tag_name)) fs)).acts⟩ := by
    simp only [download_toolchain, stBindEq, stBind, stPureEq, stPure, recordF, mfailF, hra, hsa,
      removeIfDir, h2, eq_self_iff_true, if_true, ite_true, if_false, ite_false,
      Bool.false_eq_true, List.nil_append, List.append_nil, List.singleton_append,
      List.cons_append]
  refine ⟨⟨_, by rw [e1]⟩, by rw [e1, e2], by rw [e1, e2]⟩

/-- C9 witness: the theorem applied to a staging directory left over from a
prior attempt with an unrelated file inside. -/
theorem claim_C9_witness :
    (c9Env.release.assets.find? (fun a => a.name == rust_asset_name (("t").toList)) = some c9Asset1)
    ∧ (c9Env.release.assets.find?
        (fun a => a.name == ("wasix-libc.tar.gz").toList) = some c9Asset2)
    ∧ (isDir (joinPath (("/r").toList) ((("t").toList) ++ '_' :: (("v").toList))) c9FS = true)
    ∧ ((∃ rest, (download_toolchain c9Env (("t").toList) (("/r").toList) c9FS).acts
          = Act.fetchReleaseInfo
            :: Act.removeDirAll (joinPath (("/r").toList) ((("t").toList) ++ '_' :: (("v").toList)))
            :: rest)
      ∧ (download_toolchain c9Env (("t").toList) (("/r").toList) c9FS).res
          = (download_toolchain c9Env (("t").toList) (("/r").toList)
              (removeDirAllFS (joinPath (("/r").toList) ((("t").toList) ++ '_' :: (("v").toList)))
                c9FS)).res
      ∧ (download_toolchain c9Env (("t").toList) (("/r").toList) c9FS).st
          = (download_toolchain c9Env (("t").toList) (("/r").toList)
              (removeDirAllFS (joinPath (("/r").toList) ((("t").toList) ++ '_' :: (("v").toList)))
                c9FS)).st) :=
  ⟨by decide, by decide, by decide,
    claim_C9 c9Env (("t").toList) (("/r").toList) c9FS c9Asset1 c9Asset2
      (by decide) (by decide) (by decide)⟩

theorem stBind_res_ok {σ α β : Type} {m : StM σ α} {f : α → StM σ β} {s : σ} {b : β}
    (h : (stBind m f s).res = Res.ok b) :
    ∃ a, (m s).res = Res.ok a ∧ (f a (m s).st).res = Res.ok b := by
  unfold stBind at h
  rcases hm : m s with ⟨r, st, tr⟩
  rw [hm] at h
  cases r with
  | ok a => exact ⟨a, rfl, by simpa using h⟩
  | err e => simp at h
  | panicked => simp at h

theorem sanity_ok (env : Env) (is64 : Bool) (tch : RustupToolchain) (w : World) (out : Str)
    (hrs : env.rustcSysroot = some out) (hpa : tch.path = rustTrim out)
    (hlib : pathExists (joinPath (rustTrim out)
      (if is64 then ("lib/rustlib/wasm64-wasmer-wasi").toList
        else ("lib/rustlib/wasm32-wasmer-wasi").toList)) w.fs = true) :
    toolchainSanity env is64 tch w = ⟨Res.ok tch, w, []⟩ := by
  simp only [toolchainSanity, stBindEq, stBind, stPureEq, stPure, getWorld, mfail, massertEq,
    hrs, hpa, hlib, eq_self_iff_true, if_true, ite_true, List.nil_append, List.append_nil]

theorem sanity_panic (env : Env) (is64 : Bool) (tch : RustupToolchain) (w : World) (out : Str)
    (hrs : env.rustcSysroot = some out) (hpa : tch.path ≠ rustTrim out) :
    toolchainSanity env is64 tch w = ⟨Res.panicked, w, []⟩ := by
  simp only [toolchainSanity, stBindEq, stBind, stPureEq, stPure, getWorld, mfail, massertEq,
    hrs, hpa, eq_self_iff_true, if_true, ite_true, if_false, ite_false,
    List.nil_append, List.append_nil]

theorem sanity_liberr (env : Env) (is64 : Bool) (tch : RustupToolchain) (w : World) (out : Str)
    (hrs : env.rustcSysroot = some out) (hpa : tch.path = rustTrim out)
    (hlib : pathExists (joinPath (rustTrim out)
      (if is64 then ("lib/rustlib/wasm64-wasmer-wasi").toList
        else ("lib/rustlib/wasm32-wasmer-wasi").toList)) w.fs = false) :
    toolchainSanity env is64 tch w
      = ⟨Res.err (Err.invalidToolchainLibDir (joinPath (rustTrim out)
          (if is64 then ("lib/rustlib/wasm64-wasmer-wasi").toList
            else ("lib/rustlib/wasm32-wasmer-wasi").toList))), w, []⟩ := by
  simp only [toolchainSanity, stBindEq, stBind, stPureEq, stPure, getWorld, mfail, massertEq,
    hrs, hpa, hlib, eq_self_iff_true, if_true, ite_true, if_false, ite_false,
    Bool.false_eq_true, List.nil_append, List.append_nil]

theorem sanity_norustc (env : Env) (is64 : Bool) (tch : RustupToolchain) (w : World)
    (hrs : env.rustcSysroot = none) :
    toolchainSanity env is64 tch w = ⟨Res.err Err.rustcExecFailed, w, []⟩ := by
  simp only [toolchainSanity, stBindEq, stBind, stPureEq, stPure, getWorld, mfail, massertEq,
    hrs, List.nil_append, List.append_nil]

theorem ensure_found (env : Env) (is64 off : Bool) (w : World) (chain : RustupToolchain)
    (hfind : RustupToolchain.find_by_name rustupToolchainName (renderListing w.reg)
      = some chain) :
    ensure_toolchain env is64 off w = toolchainSanity env is64 chain w := by
  simp only [ensure_toolchain, stBindEq, stBind, stPureEq, stPure, getWorld, hfind]
  rcases h : toolchainSanity env is64 chain w with ⟨r, st, tr⟩
  simp

theorem ensure_none_offline (env : Env) (is64 : Bool) (w : World)
    (hfind : RustupToolchain.find_by_name rustupToolchainName (renderListing w.reg) = none) :
    ensure_toolchain env is64 true w = ⟨Res.err Err.offlineUnavailable, w, []⟩ := by
  simp only [ensure_toolchain, stBindEq, stBind, stPureEq, stPure, getWorld, mfail, hfind,
    Bool.not_true, Bool.false_eq_true, if_false, ite_false, List.nil_append, List.append_nil]

theorem ensure_none_online (env : Env) (is64 : Bool) (w : World)
    (hfind : RustupToolchain.find_by_name rustupToolchainName (renderListing w.reg) = none) :
    ensure_toolchain env is64 false w
      = stBind (install_prebuilt_toolchain env env.toolchain_dir)
          (toolchainSanity env is64) w := by
  rcases hi : install_prebuilt_toolchain env env.toolchain_dir w with ⟨ri, sti, tri⟩
  simp only [ensure_toolchain, stBindEq, stBind, stPureEq, stPure, getWorld, hfind,
    Bool.not_false, if_true, ite_true, hi]
  cases ri <;> simp

/-- C6: with offline mode requested and no toolchain under the fixed
logical name in the registry, ensure_toolchain fails with the directive
error telling the operator to run cargo wasix build-toolchain, leaves the
world untouched, and its action trace is empty, so it performs no network
call, no download, no extraction and no build work. -/
theorem claim_C6 (env : Env) (is64 : Bool) (w : World)
    (hfind : RustupToolchain.find_by_name rustupToolchainName (renderListing w.reg) = none) :
    ensure_toolchain env is64 true w = ⟨Res.err Err.offlineUnavailable, w, []⟩
    ∧ (ensure_toolchain env is64 true w).acts.filter isNetworkAct = [] := by
  have h := ensure_none_offline env is64 w hfind
  exact ⟨h, by rw [h]; rfl⟩

/-- C6 witness: the theorem applied to an empty registry. -/
theorem claim_C6_witness :
    RustupToolchain.find_by_name rustupToolchainName (renderListing []) = none
    ∧ ensure_toolchain c4EnvA false true { fs := { files := [], dirs := [] }, reg := [] }
        = ⟨Res.err Err.offlineUnavailable, { fs := { files := [], dirs := [] }, reg := [] }, []⟩ :=
  ⟨by decide,
    (claim_C6 c4EnvA false { fs := { files := [], dirs := [] }, reg := [] } (by decide)).1⟩

/-- C10: after a toolchain handle is obtained (here: found in the
registry), ensure_toolchain compares the sysroot printed by rustc with the
registered path of the handle using assert_eq: a mismatch makes the computation
panic rather than return a typed error, while a missing target library
directory produces an ordinary returned error naming that directory. -/
theorem claim_C10 (env : Env) (is64 off : Bool) (w : World) (chain : RustupToolchain)
    (out : Str)
    (hfind : RustupToolchain.find_by_name rustupToolchainName (renderListing w.reg)
      = some chain)
    (hrs : env.rustcSysroot = some out) :
    (chain.path ≠ rustTrim out →
      ensure_toolchain env is64 off w = ⟨Res.panicked, w, []⟩)
    ∧ (chain.path = rustTrim out →
      pathExists (joinPath (rustTrim out)
        (if is64 then ("lib/rustlib/wasm64-wasmer-wasi").toList
          else ("lib/rustlib/wasm32-wasmer-wasi").toList)) w.fs = false →
      ensure_toolchain env is64 off w
        = ⟨Res.err (Err.invalidToolchainLibDir (joinPath (rustTrim out)
            (if is64 then ("lib/rustlib/wasm64-wasmer-wasi").toList
              else ("lib/rustlib/wasm32-wasmer-wasi").toList))), w, []⟩) := by
  constructor
  · intro hne
    rw [ensure_found env is64 off w chain hfind]
    exact sanity_panic env is64 chain w out hrs hne
  · intro hpa hlib
    rw [ensure_found env is64 off w chain hfind]
    exact sanity_liberr env is64 chain w out hrs hpa hlib

/-- C10 witness: the theorem applied once where the registered path and the
rustc sysroot disagree (the run panics) and once where they agree but the
library directory is missing (an ordinary error). -/
theorem claim_C10_witness :
    (ensure_toolchain c10Env false false c10World = ⟨Res.panicked, c10World, []⟩)
    ∧ (ensure_toolchain c10Env false false c10World2
        = ⟨Res.err (Err.invalidToolchainLibDir (joinPath (rustTrim (("/w").toList))
            (if false then ("lib/rustlib/wasm64-wasmer-wasi").toList
              else ("lib/rustlib/wasm32-wasmer-wasi").toList))), c10World2, []⟩) := by
  constructor
  · exact (claim_C10 c10Env false false c10World
      { name := ("wasix").toList, path := ("/memory").toList } (("/w").toList)
      (by decide) (by decide)).1 (by decide)
  · exact (claim_C10 c10Env false false c10World2
      { name := ("wasix").toList, path := ("/w").toList } (("/w").toList)
      (by decide) (by decide)).2 (by decide) (by decide)

/-- C8: when the host has a known prebuilt target and the download path
fails, install_prebuilt_toolchain returns that failure wrapped in the
download-failed context and does nothing else: final state and action trace
are exactly those of the failed download attempt, so no build is started as
a fallback.  When the host has no known target it fails with the distinct
error whose message tells the caller to run the build path explicitly. -/
theorem claim_C8 (env : Env) (root : Str) (w : World) :
    (∀ target e, guess_host_target env.arch env.os = some target →
      (download_toolchain env target root w.fs).res = Res.err e →
      install_prebuilt_toolchain env root w
        = ⟨Res.err (Err.downloadFailed e),
           { fs := (download_toolchain env target root w.fs).st, reg := w.reg },
           (download_toolchain env target root w.fs).acts⟩)
    ∧ (guess_host_target env.arch env.os = none →
      install_prebuilt_toolchain env root w = ⟨Res.err Err.noHostTarget, w, []⟩) := by
  constructor
  · intro target e hg hres
    rcases hd : download_toolchain env target root w.fs with ⟨r, st, tr⟩
    rw [hd] at hres
    simp only at hres
    subst hres
    simp only [install_prebuilt_toolchain, hg, liftFS, hd]
  · intro hg
    simp only [install_prebuilt_toolchain, hg]

/-- C8 witness: the theorem applied to a failing download on a supported
host and to an unsupported host. -/
theorem claim_C8_witness :
    (install_prebuilt_toolchain c8Env (("/r").toList)
        { fs := { files := [], dirs := [] }, reg := [] }
      = ⟨Res.err (Err.downloadFailed
            (Err.noPrebuiltForHost (("v").toList) (("x86_64-unknown-linux-gnu").toList))),
          { fs := (download_toolchain c8Env (("x86_64-unknown-linux-gnu").toList)
              (("/r").toList) { files := [], dirs := [] }).st, reg := [] },
          (download_toolchain c8Env (("x86_64-unknown-linux-gnu").toList)
              (("/r").toList) { files := [], dirs := [] }).acts⟩)
    ∧ (install_prebuilt_toolchain c8EnvB (("/r").toList)
        { fs := { files := [], dirs := [] }, reg := [] }
      = ⟨Res.err Err.noHostTarget, { fs := { files := [], dirs := [] }, reg := [] }, []⟩) := by
  constructor
  · exact (claim_C8 c8Env (("/r").toList) { fs := { files := [], dirs := [] }, reg := [] }).1
      (("x86_64-unknown-linux-gnu").toList)
      (Err.noPrebuiltForHost (("v").toList) (("x86_64-unknown-linux-gnu").toList))
      (by decide) (by decide)
  · exact (claim_C8 c8EnvB (("/r").toList) { fs := { files := [], dirs := [] }, reg := [] }).2
      (by decide)

theorem link_comp_some (name dir : Str) (w : World) (tch : RustupToolchain)
    (hrustc : isFile (joinPath dir ("bin/rustc").toList) w.fs = true)
    (hfind : RustupToolchain.find_by_name name (renderListing w.reg) = some tch) :
    RustupToolchain.link name dir w
      = ⟨Res.ok { name := name, path := dir },
          { fs := w.fs, reg := rustupLink name dir (rustupRemove name w.reg) }, []⟩ := by
  simp only [RustupToolchain.link, stBindEq, stBind, stPureEq, stPure, getWorld, modifyReg,
    mfail, hrustc, hfind, eq_self_iff_true, if_true, ite_true, List.nil_append, List.append_nil]

theorem link_comp_none (name dir : Str) (w : World)
    (hrustc : isFile (joinPath dir ("bin/rustc").toList) w.fs = true)
    (hfind : RustupToolchain.find_by_name name (renderListing w.reg) = none) :
    RustupToolchain.link name dir w
      = ⟨Res.ok { name := name, path := dir },
          { fs := w.fs, reg := rustupLink name dir w.reg }, []⟩ := by
  simp only [RustupToolchain.link, stBindEq, stBind, stPureEq, stPure, getWorld, modifyReg,
    mfail, hrustc, hfind, eq_self_iff_true, if_true, ite_true, List.nil_append, List.append_nil]

theorem filter_after_remove (name : Str) (reg : Registry) :
    (reg.filter (fun e => !(e.name == name))).filter (fun e => e.name == name) = [] := by
  induction reg with
  | nil => rfl
  | cons e t ih =>
    by_cases he : e.name = name
    · simp [List.filter_cons, he, ih]
    · simp [List.filter_cons, he, ih]

theorem filter_none_of_no_exact (name : Str) (reg : Registry)
    (h : ∀ e ∈ reg, e.name ≠ name) :
    reg.filter (fun e => e.name == name) = [] := by
  induction reg with
  | nil => rfl
  | cons e t ih =>
    have he : e.name ≠ name := h e (by simp)
    simp only [List.filter_cons]
    rw [if_neg (by simpa using he)]
    exact ih (fun x hx => h x (by simp [hx]))

theorem no_exact_of_find_none (name : Str) (hw : wsFree name = true) (reg : Registry)
    (hreg : ∀ e ∈ reg, WfEntry e)
    (hfind : RustupToolchain.find_by_name name (renderListing reg) = none) :
    ∀ e ∈ reg, e.name ≠ name := by
  intro e he heq
  rw [find_by_name_render name hw reg hreg, Option.map_eq_none', List.find?_eq_none] at hfind
  exact hfind e he (by rw [heq]; exact isPrefixOf_iff.mpr (List.prefix_refl name))

/-- C5: linking a name whose directory holds the compiler executable first
unlinks any entry found under that name and then links the new one; in the
resulting registry exactly one live entry carries that name and it points
at the new directory, whatever the registry held before, and the returned
handle is that entry. -/
theorem claim_C5 (name dir : Str) (w : World)
    (hw : wsFree name = true) (hreg : ∀ e ∈ w.reg, WfEntry e)
    (hrustc : isFile (joinPath dir ("bin/rustc").toList) w.fs = true) :
    (RustupToolchain.link name dir w).res = Res.ok { name := name, path := dir }
    ∧ (RustupToolchain.link name dir w).st.fs = w.fs
    ∧ (RustupToolchain.link name dir w).st.reg.filter (fun e => e.name == name)
        = [{ name := name, path := dir }] := by
  cases hfind : RustupToolchain.find_by_name name (renderListing w.reg) with
  | some tch =>
    rw [link_comp_some name dir w tch hrustc hfind]
    refine ⟨rfl, rfl, ?_⟩
    rw [rustupLink, rustupRemove, List.filter_append, filter_after_remove]
    simp
  | none =>
    rw [link_comp_none name dir w hrustc hfind]
    refine ⟨rfl, rfl, ?_⟩
    rw [rustupLink, List.filter_append,
      filter_none_of_no_exact name w.reg (no_exact_of_find_none name hw w.reg hreg hfind)]
    simp

/-- C5 witness: the theorem applied to a registry that already holds the
name at a different path; afterwards exactly one wasix entry exists and it
points at /new. -/
theorem claim_C5_witness :
    wsFree (("wasix").toList) = true
    ∧ (∀ e ∈ c5World.reg, WfEntry e)
    ∧ isFile (joinPath (("/new").toList) ("bin/rustc").toList) c5World.fs = true
    ∧ (RustupToolchain.link (("wasix").toList) (("/new").toList) c5World).res
        = Res.ok { name := ("wasix").toList, path := ("/new").toList }
    ∧ (RustupToolchain.link (("wasix").toList) (("/new").toList) c5World).st.reg.filter
        (fun e => e.name == ("wasix").toList)
        = [{ name := ("wasix").toList, path := ("/new").toList }] := by
  have h := claim_C5 (("wasix").toList) (("/new").toList) c5World
    (by decide) (by decide) (by decide)
  exact ⟨by decide, by decide, by decide, h.1, h.2.2⟩

theorem stage2_ok_val {env : Env} {target tdir : Str} {ra sa : GithubAsset} {fs : FS} {p : Str}
    (h : (download_stage2 env target tdir ra sa fs).res = Res.ok p) : p = tdir := by
  simp only [download_stage2, stBindEq, stPureEq] at h
  obtain ⟨_, _, h⟩ := stBind_res_ok h
  obtain ⟨_, _, h⟩ := stBind_res_ok h
  obtain ⟨_, _, h⟩ := stBind_res_ok h
  obtain ⟨_, _, h⟩ := stBind_res_ok h
  obtain ⟨_, _, h⟩ := stBind_res_ok h
  obtain ⟨_, _, h⟩ := stBind_res_ok h
  simp [stPure] at h
  exact h.symm

theorem download_ok_val {env : Env} {target root : Str} {fs : FS} {p : Str}
    (h : (download_toolchain env target root fs).res = Res.ok p) :
    p = joinPath root (target ++ '_' :: env.release.tag_name) := by
  cases hra : env.release.assets.find? (fun a => a.name == rust_asset_name target) with
  | none =>
    simp only [download_toolchain, stBindEq, hra] at h
    obtain ⟨_, _, h⟩ := stBind_res_ok h
    simp [mfailF] at h
  | some ra =>
    cases hsa : env.release.assets.find? (fun a => a.name == ("wasix-libc.tar.gz").toList) with
    | none =>
      simp only [download_toolchain, stBindEq, hra, hsa] at h
      obtain ⟨_, _, h⟩ := stBind_res_ok h
      simp [mfailF] at h
    | some sa =>
      simp only [download_toolchain, stBindEq, hra, hsa] at h
      obtain ⟨_, _, h⟩ := stBind_res_ok h
      obtain ⟨_, _, h⟩ := stBind_res_ok h
      exact stage2_ok_val h

theorem guess_wsFree {arch : TargetArch} {os : TargetOs} {t : Str}
    (h : guess_host_target arch os = some t) : wsFree t = true ∧ t ≠ [] := by
  cases arch <;> cases os <;> simp [guess_host_target] at h <;>
    (subst h; exact ⟨by decide, by decide⟩)

theorem wsFree_append {a b : Str} (ha : wsFree a = true) (hb : wsFree b = true) :
    wsFree (a ++ b) = true := by
  rw [wsFree, List.all_append]
  rw [wsFree] at ha hb
  simp [ha, hb]

theorem wsFree_cons {c : Char} {b : Str} (hc : c.isWhitespace = false)
    (hb : wsFree b = true) : wsFree (c :: b) = true := by
  rw [wsFree, List.all_cons]
  rw [wsFree] at hb
  simp [hc, hb]

theorem link_comp_badrustc (name dir : Str) (w : World)
    (hrustc : isFile (joinPath dir ("bin/rustc").toList) w.fs = false) :
    RustupToolchain.link name dir w
      = ⟨Res.err (Err.invalidToolchainDir (joinPath dir ("bin/rustc").toList)), w, []⟩ := by
  simp only [RustupToolchain.link, stBindEq, stBind, stPureEq, stPure, getWorld, modifyReg,
    mfail, hrustc, Bool.false_eq_true, if_false, ite_false, List.nil_append, List.append_nil]

theorem install_comp_ok (env : Env) (root : Str) (w : World) (target path : Str)
    (dst : FS) (dacts : List Act)
    (hg : guess_host_target env.arch env.os = some target)
    (hd : download_toolchain env target root w.fs = ⟨Res.ok path, dst, dacts⟩) :
    install_prebuilt_toolchain env root w
      = ⟨(RustupToolchain.link rustupToolchainName (joinPath path ("rust").toList)
            { fs := dst, reg := w.reg }).res,
         (RustupToolchain.link rustupToolchainName (joinPath path ("rust").toList)
            { fs := dst, reg := w.reg }).st,
         dacts ++ (RustupToolchain.link rustupToolchainName (joinPath path ("rust").toList)
            { fs := dst, reg := w.reg }).acts⟩ := by
  simp only [install_prebuilt_toolchain, hg, liftFS, hd]

theorem install_comp_err (env : Env) (root : Str) (w : World) (target : Str) (e : Err)
    (dst : FS) (dacts : List Act)
    (hg : guess_host_target env.arch env.os = some target)
    (hd : download_toolchain env target root w.fs = ⟨Res.err e, dst, dacts⟩) :
    install_prebuilt_toolchain env root w
      = ⟨Res.err (Err.downloadFailed e), { fs := dst, reg := w.reg }, dacts⟩ := by
  simp only [install_prebuilt_toolchain, hg, liftFS, hd]

theorem install_comp_panic (env : Env) (root : Str) (w : World) (target : Str)
    (dst : FS) (dacts : List Act)
    (hg : guess_host_target env.arch env.os = some target)
    (hd : download_toolchain env target root w.fs = ⟨Res.panicked, dst, dacts⟩) :
    install_prebuilt_toolchain env root w
      = ⟨Res.panicked, { fs := dst, reg := w.reg }, dacts⟩ := by
  simp only [install_prebuilt_toolchain, hg, liftFS, hd]

theorem findP_none_of_render_none {name : Str} (hw : wsFree name = true) {reg : Registry}
    (hreg : ∀ e ∈ reg, WfEntry e)
    (hfind : RustupToolchain.find_by_name name (renderListing reg) = none) :
    reg.find? (fun e => name.isPrefixOf e.name) = none := by
  rw [find_by_name_render name hw reg hreg] at hfind
  exact Option.map_eq_none'.mp hfind

theorem find_render_append {name : Str} (hw : wsFree name = true) {reg : Registry}
    (hreg : ∀ e ∈ reg, WfEntry e)
    (hfind : RustupToolchain.find_by_name name (renderListing reg) = none)
    (e : RegEntry) (hwf : WfEntry e) (hpe : name.isPrefixOf e.name = true) :
    RustupToolchain.find_by_name name (renderListing (reg ++ [e]))
      = some { name := name, path := e.path } := by
  have hall : ∀ x ∈ reg ++ [e], WfEntry x := by
    intro x hx
    rcases List.mem_append.mp hx with hx | hx
    · exact hreg x hx
    · simp at hx; rw [hx]; exact hwf
  rw [find_by_name_render name hw (reg ++ [e]) hall, List.find?_append,
    findP_none_of_render_none hw hreg hfind]
  simp [List.find?_cons, hpe]

/-- C7: if one invocation of ensure_toolchain succeeds with handle h, a
second invocation started from the state the first one left behind
short-circuits on the registered toolchain: it returns the very same handle
h, changes nothing, and its action trace is empty, so it performs no
network and no build work.  The whitespace-freedom hypotheses reflect that
rustup toolchain names and installation paths contain no whitespace (the
listing parser splits lines on whitespace). -/
theorem claim_C7 (env : Env) (is64 off : Bool) (w : World) (h : RustupToolchain)
    (hreg : ∀ e ∈ w.reg, WfEntry e)
    (hroot : wsFree env.toolchain_dir = true)
    (htag : wsFree env.release.tag_name = true)
    (hok : (ensure_toolchain env is64 off w).res = Res.ok h) :
    ensure_toolchain env is64 off ((ensure_toolchain env is64 off w).st)
      = ⟨Res.ok h, (ensure_toolchain env is64 off w).st, []⟩ := by
  cases hfind : RustupToolchain.find_by_name rustupToolchainName (renderListing w.reg) with
  | some chain =>
    have he1 := ensure_found env is64 off w chain hfind
    rw [he1] at hok ⊢
    cases hrs : env.rustcSysroot with
    | none =>
      rw [sanity_norustc env is64 chain w hrs] at hok
      simp at hok
    | some out =>
      by_cases hpa : chain.path = rustTrim out
      · by_cases hlib : pathExists (joinPath (rustTrim out)
            (if is64 then ("lib/rustlib/wasm64-wasmer-wasi").toList
              else ("lib/rustlib/wasm32-wasmer-wasi").toList)) w.fs = true
        · have hs := sanity_ok env is64 chain w out hrs hpa hlib
          rw [hs] at hok ⊢
          have hch : chain = h := by simpa using hok
          subst hch
          show ensure_toolchain env is64 off w = _
          rw [ensure_found env is64 off w chain hfind, hs]
        · rw [sanity_liberr env is64 chain w out hrs hpa
            (by simpa using hlib)] at hok
          simp at hok
      · rw [sanity_panic env is64 chain w out hrs hpa] at hok
        simp at hok
  | none =>
    cases off with
    | true =>
      rw [ensure_none_offline env is64 w hfind] at hok
      simp at hok
    | false =>
      have he3 := ensure_none_online env is64 w hfind
      rw [he3] at hok ⊢
      obtain ⟨tch, hresi, hress⟩ := stBind_res_ok hok
      cases hg : guess_host_target env.arch env.os with
      | none =>
        have hinone : install_prebuilt_toolchain env env.toolchain_dir w
            = ⟨Res.err Err.noHostTarget, w, []⟩ := by
          simp only [install_prebuilt_toolchain, hg]
        rw [hinone] at hresi
        simp at hresi
      | some target =>
        rcases hd : download_toolchain env target env.toolchain_dir w.fs with ⟨dr, dst, dacts⟩
        cases dr with
        | err e =>
          rw [install_comp_err env env.toolchain_dir w target e dst dacts hg hd] at hresi
          simp at hresi
        | panicked =>
          rw [install_comp_panic env env.toolchain_dir w target dst dacts hg hd] at hresi
          simp at hresi
        | ok path =>
          have hpath : path = joinPath env.toolchain_dir (target ++ '_' :: env.release.tag_name) :=
            download_ok_val (by rw [hd])
          have hic := install_comp_ok env env.toolchain_dir w target path dst dacts hg hd
          by_cases hrc : isFile (joinPath (joinPath path ("rust").toList)
              ("bin/rustc").toList) dst = true
          case neg =>
            rw [link_comp_badrustc rustupToolchainName (joinPath path ("rust").toList)
              (World.mk dst w.reg) (by simpa using hrc)] at hic
            rw [hic] at hresi
            simp at hresi
          case pos =>
            have hlk := link_comp_none rustupToolchainName (joinPath path ("rust").toList)
              (World.mk dst w.reg) hrc hfind
            rw [hlk] at hic
            rw [hic] at hresi hress
            dsimp only at hresi hress
            have htch : tch
                = RustupToolchain.mk rustupToolchainName (joinPath path ("rust").toList) := by
              simpa using hresi.symm
            cases hrs : env.rustcSysroot with
            | none =>
              rw [sanity_norustc env is64 tch (World.mk dst (rustupLink rustupToolchainName
                (joinPath path ("rust").toList) w.reg)) hrs] at hress
              simp at hress
            | some out =>
              by_cases hpa : tch.path = rustTrim out
              · by_cases hlib : pathExists (joinPath (rustTrim out)
                    (if is64 then ("lib/rustlib/wasm64-wasmer-wasi").toList
                      else ("lib/rustlib/wasm32-wasmer-wasi").toList)) dst = true
                · have hs2 := sanity_ok env is64 tch
                    (World.mk dst (rustupLink rustupToolchainName
                      (joinPath path ("rust").toList) w.reg)) out hrs hpa hlib
                  rw [hs2] at hress
                  dsimp only at hress
                  have hh : tch = h := by simpa using hress
                  subst hh
                  have hfull : stBind (install_prebuilt_toolchain env env.toolchain_dir)
                      (toolchainSanity env is64) w
                      = ⟨Res.ok tch,
                          World.mk dst (rustupLink rustupToolchainName
                            (joinPath path ("rust").toList) w.reg),
                          dacts ++ []⟩ := by
                    rw [stBind.eq_def, hic]
                    dsimp only
                    rw [← htch, hs2]
                    simp
                  rw [hfull]
                  have hwdir : wsFree (joinPath path ("rust").toList) = true := by
                    rw [hpath, joinPath, joinPath, List.append_assoc, List.cons_append]
                    refine wsFree_append hroot (wsFree_cons (by decide) ?_)
                    rw [List.append_assoc, List.cons_append]
                    refine wsFree_append (guess_wsFree hg).1 (wsFree_cons (by decide) ?_)
                    exact wsFree_append htag (wsFree_cons (by decide) (by decide))
                  have hwf : WfEntry (RegEntry.mk rustupToolchainName
                      (joinPath path ("rust").toList)) := by
                    refine ⟨?_, ?_, ?_, ?_⟩ <;> dsimp only
                    · decide
                    · decide
                    · simp [joinPath]
                    · exact hwdir
                  have hfind2 := find_render_append
                    (by decide : wsFree rustupToolchainName = true) hreg hfind
                    (RegEntry.mk rustupToolchainName (joinPath path ("rust").toList))
                    hwf
                    (isPrefixOf_iff.mpr (List.prefix_refl rustupToolchainName))
                  have hfind2' : RustupToolchain.find_by_name rustupToolchainName
                      (renderListing (World.mk dst (rustupLink rustupToolchainName
                        (joinPath path ("rust").toList) w.reg)).reg)
                      = some tch := by
                    rw [htch]
                    exact hfind2
                  rw [ensure_found env is64 false _ tch hfind2']
                  exact sanity_ok env is64 tch _ out hrs hpa hlib
                · rw [sanity_liberr env is64 tch
                    (World.mk dst (rustupLink rustupToolchainName
                      (joinPath path ("rust").toList) w.reg)) out hrs hpa
                    (by simpa using hlib)] at hress
                  simp at hress
              · rw [sanity_panic env is64 tch
                  (World.mk dst (rustupLink rustupToolchainName
                    (joinPath path ("rust").toList) w.reg)) out hrs hpa] at hress
                simp at hress

/-- C7 witness: the first invocation installs and registers the toolchain;
the theorem then gives that the second invocation, started from the state
the first one produced, returns the same handle with an empty action
trace. -/
theorem claim_C7_witness :
    (∀ e ∈ c7World.reg, WfEntry e)
    ∧ wsFree c7Env.toolchain_dir = true
    ∧ wsFree c7Env.release.tag_name = true
    ∧ (ensure_toolchain c7Env false false c7World).res
        = Res.ok (RustupToolchain.mk (("wasix").toList)
            (("/r/x86_64-unknown-linux-gnu_v1/rust").toList))
    ∧ ensure_toolchain c7Env false false ((ensure_toolchain c7Env false false c7World).st)
        = ⟨Res.ok (RustupToolchain.mk (("wasix").toList)
              (("/r/x86_64-unknown-linux-gnu_v1/rust").toList)),
           (ensure_toolchain c7Env false false c7World).st, []⟩ :=
  ⟨by decide, by decide, by decide, by decide,
    claim_C7 c7Env false false c7World
      (RustupToolchain.mk (("wasix").toList) (("/r/x86_64-unknown-linux-gnu_v1/rust").toList))
      (by decide) (by decide) (by decide) (by decide)⟩

